import Mathlib

/-!
# TravelMind access-control, secret-encryption and audit-logging core

Shallow embedding of the security-relevant subsystem of the TravelMind
backend (`src/backend`), translated function by function from the Python
source:

* `routes/trips.py` — `check_trip_access`, `verify_trip_access`,
  `verify_trip_ownership`, `share_trip`, `accept_trip_invitation`,
  `decline_trip_invitation`;
* `utils/access_control.py` — `verify_trip_access` (a second, distinct
  verifier without an admin bypass);
* `routes/participants.py` — the router-local `verify_trip_access` and the
  participant CRUD endpoints;
* `utils/encryption.py` — `EncryptionService` (PBKDF2 + Fernet, per-user
  base64 salts);
* `services/audit_service.py` — `AuditService.log_event` and
  `_extract_request_info`.

The SQLAlchemy session is modelled by explicit lists of rows;
`scalar_one_or_none` on a filtered select becomes `List.find?` with the
filter as a boolean predicate (the row sets of interest carry an
at-most-one-row-per-key invariant, stated as a hypothesis where a theorem
needs it).  `HTTPException` and `ValueError` become `Except` errors.
-/

set_option autoImplicit false

namespace TravelMind

/-- The `PermissionLevel` enum from `models/participant.py`
(values `"owner"`, `"editor"`, `"viewer"`). -/
inductive PermissionLevel where
  | owner
  | editor
  | viewer
deriving DecidableEq, Repr

/-- The `InvitationStatus` enum from `models/participant.py`
(values `"pending"`, `"accepted"`, `"declined"`). -/
inductive InvitationStatus where
  | pending
  | accepted
  | declined
deriving DecidableEq, Repr

/-- The `User` model (`models/user.py`): the fields the access-control and
invitation code reads. -/
structure User where
  id : Nat
  username : String
  email : String
  full_name : Option String
  is_superuser : Bool
deriving DecidableEq, Repr

/-- The `Trip` model (`models/trip.py`): the fields the access-control code
reads. -/
structure Trip where
  id : Nat
  owner_id : Nat
deriving DecidableEq, Repr

/-- The `Participant` model (`models/participant.py`): join row between a user
and a trip.  Timestamps are abstract `Nat` instants. -/
structure Participant where
  id : Nat
  trip_id : Nat
  user_id : Option Nat
  name : String
  email : Option String
  role : Option String
  photo_url : Option String
  permission : PermissionLevel
  invitation_status : InvitationStatus
  invited_at : Option Nat
  accepted_at : Option Nat
deriving DecidableEq, Repr

/-- The `Participant.can_edit` property (`models/participant.py` lines 63-66):
`self.permission in [PermissionLevel.OWNER.value, PermissionLevel.EDITOR.value]`. -/
def Participant.can_edit (p : Participant) : Bool :=
  p.permission = PermissionLevel.owner ∨ p.permission = PermissionLevel.editor

/-- The `can_edit` test lifted to a resolved permission level (the spec's
`canEdit(level)`; same membership test as `Participant.can_edit`, with
`None` mapped to `false`). -/
def canEditLevel : Option PermissionLevel → Bool
  | some PermissionLevel.owner => true
  | some PermissionLevel.editor => true
  | _ => false

/-- Model of `fastapi.HTTPException`: status code plus detail string. -/
structure HTTPError where
  status_code : Nat
  detail : String
deriving DecidableEq, Repr

/-- The filter of the participant lookup used by `check_trip_access`
(`routes/trips.py`): row for this trip and user with
`invitation_status == ACCEPTED`. -/
def acceptedRowFor (trip_id user_id : Nat) (p : Participant) : Bool :=
  p.trip_id = trip_id ∧ p.user_id = some user_id ∧
    p.invitation_status = InvitationStatus.accepted

/-- The filter of the participant lookup used by the invitation endpoints
and `share_trip` (`routes/trips.py`): any row for this (trip, user) pair,
regardless of status. -/
def rowForPair (trip_id user_id : Nat) (p : Participant) : Bool :=
  p.trip_id = trip_id ∧ p.user_id = some user_id

/-- The filter of the invited-user lookup in `share_trip`
(`routes/trips.py`): `User.username == x OR User.email == x`. -/
def userMatches (username_or_email : String) (u : User) : Bool :=
  u.username = username_or_email ∨ u.email = username_or_email

namespace Trips

/-- Model of `check_trip_access` (`routes/trips.py` lines 213-255): admin ⇒ OWNER;
owner ⇒ OWNER; else look up the ACCEPTED participant row for the pair; if
found and `require_edit` with a VIEWER row ⇒ `None`, else that row's
permission; no row ⇒ `None`. -/
def check_trip_access (trip : Trip) (user : User) (db : List Participant)
    (require_edit : Bool) : Option PermissionLevel :=
  if user.is_superuser then some PermissionLevel.owner
  else if trip.owner_id = user.id then some PermissionLevel.owner
  else
    match db.find? (acceptedRowFor trip.id user.id) with
    | some participant =>
        if require_edit ∧ participant.permission = PermissionLevel.viewer then
          none
        else
          some participant.permission
    | none => none

/-- Model of `verify_trip_access` (`routes/trips.py` lines 258-284): raises HTTP 403
when `check_trip_access` returns `None`, otherwise returns the permission. -/
def verify_trip_access (trip : Trip) (user : User) (db : List Participant)
    (require_edit : Bool) : Except HTTPError PermissionLevel :=
  match check_trip_access trip user db require_edit with
  | none =>
      Except.error ⟨403, "You do not have permission to access this trip"⟩
  | some permission => Except.ok permission

/-- Model of `verify_trip_ownership` (`routes/trips.py` lines 287-301): admin passes;
otherwise the caller must be the trip's owner, else HTTP 403. -/
def verify_trip_ownership (trip : Trip) (user : User) :
    Except HTTPError Unit :=
  if user.is_superuser then Except.ok ()
  else if trip.owner_id ≠ user.id then
    Except.error ⟨403, "You do not have permission to access this trip"⟩
  else Except.ok ()

end Trips

namespace AccessControl

/-- Model of `verify_trip_access` (`utils/access_control.py` lines 20-91): loads the
trip (404 if absent), lets the trip's owner through, otherwise requires an
ACCEPTED participant row (403 `"Access denied"` if none) and, when
`require_edit`, that the row `can_edit` (403 `"Edit permission required"`).
Note: unlike the verifier in `routes/trips.py`, there is no
`is_superuser` branch. -/
def verify_trip_access (trip_id : Nat) (current_user : User)
    (trips : List Trip) (participants : List Participant)
    (require_edit : Bool) : Except HTTPError Trip :=
  match trips.find? (fun t => t.id = trip_id) with
  | none => Except.error ⟨404, "Trip not found"⟩
  | some trip =>
    if trip.owner_id = current_user.id then Except.ok trip
    else
      match participants.find? (acceptedRowFor trip_id current_user.id) with
      | none => Except.error ⟨403, "Access denied"⟩
      | some participant =>
        if require_edit ∧ ¬ participant.can_edit then
          Except.error ⟨403, "Edit permission required"⟩
        else Except.ok trip

end AccessControl

/-- Helper lemma: `List.find?` returns the matching element when exactly one element of
the list satisfies the predicate. -/
theorem find?_eq_some_of_mem_unique {α : Type} (p : α → Bool) (l : List α)
    (a : α) (ha : a ∈ l) (hpa : p a = true)
    (huniq : ∀ x ∈ l, p x = true → x = a) : l.find? p = some a := by
  induction l with
  | nil => cases ha
  | cons b bs ih =>
    by_cases hb : p b = true
    · have hba : b = a := huniq b (List.mem_cons_self b bs) hb
      subst hba
      exact List.find?_cons_of_pos bs hb
    · rcases List.mem_cons.mp ha with h | h
      · subst h; exact absurd hpa hb
      · rw [List.find?_cons_of_neg bs hb]
        exact ih h fun x hx hpx => huniq x (List.mem_cons_of_mem _ hx) hpx

/-- C1: with `require_edit = false`, `check_trip_access` implements the
spec's first-match permission resolution: admin or owner ⇒ OWNER; otherwise
the permission of the unique ACCEPTED participant row for the pair if one
exists, and `None` when no such row exists. -/
theorem check_trip_access_read_matches_resolver_spec
    (trip : Trip) (user : User) (db : List Participant)
    (huniq : ∀ x ∈ db, ∀ y ∈ db, acceptedRowFor trip.id user.id x →
      acceptedRowFor trip.id user.id y → x = y) :
    (user.is_superuser = true ∨ trip.owner_id = user.id →
        Trips.check_trip_access trip user db false = some PermissionLevel.owner) ∧
    (user.is_superuser = false → trip.owner_id ≠ user.id →
      (∀ p ∈ db, acceptedRowFor trip.id user.id p →
          Trips.check_trip_access trip user db false = some p.permission) ∧
      ((∀ p ∈ db, ¬ acceptedRowFor trip.id user.id p) →
          Trips.check_trip_access trip user db false = none)) := by
  constructor
  · intro h
    by_cases hs : user.is_superuser
    · simp [Trips.check_trip_access, hs]
    · rcases h with h | h
      · exact absurd h hs
      · simp [Trips.check_trip_access, hs, h]
  · intro hs ho
    constructor
    · intro p hp hpm
      have hfind : db.find? (acceptedRowFor trip.id user.id) = some p :=
        find?_eq_some_of_mem_unique _ db p hp hpm
          fun x hx hpx => huniq x hx p hp hpx hpm
      simp [Trips.check_trip_access, hs, ho, hfind]
    · intro hnone
      have hfind : db.find? (acceptedRowFor trip.id user.id) = none :=
        List.find?_eq_none.mpr hnone
      simp [Trips.check_trip_access, hs, ho, hfind]

/-- C1 witness: a single ACCEPTED EDITOR row resolves to EDITOR for a
non-admin non-owner. -/
theorem check_trip_access_read_matches_resolver_spec_witness :
    Trips.check_trip_access ⟨1, 10⟩ ⟨5, "u", "u@x", none, false⟩
      [⟨7, 1, some 5, "n", none, none, none, PermissionLevel.editor,
        InvitationStatus.accepted, none, none⟩] false
      = some PermissionLevel.editor := by
  have h := check_trip_access_read_matches_resolver_spec ⟨1, 10⟩
    ⟨5, "u", "u@x", none, false⟩
    [⟨7, 1, some 5, "n", none, none, none, PermissionLevel.editor,
      InvitationStatus.accepted, none, none⟩] (by decide)
  exact (h.2 rfl (by decide)).1 _ (List.mem_cons_self _ _) (by decide)

/-- C2 counterexample: an admin (`is_superuser = true`) who neither owns
trip 1 nor has any participant row is denied with HTTP 403 by
`utils/access_control.py`'s `verify_trip_access`, which has no admin
bypass. -/
theorem access_control_denies_admin_counterexample :
    (⟨2, "admin", "a@x", none, true⟩ : User).is_superuser = true ∧
    AccessControl.verify_trip_access 1 ⟨2, "admin", "a@x", none, true⟩
      [⟨1, 1⟩] [] false = Except.error ⟨403, "Access denied"⟩ :=
  ⟨rfl, rfl⟩

/-- C2 amended: the admin bypass holds for both verifier entry points in
`routes/trips.py` (`check_trip_access` resolves to OWNER and
`verify_trip_access` returns OWNER, for read and edit checks alike), but
`utils/access_control.py`'s `verify_trip_access` denies with HTTP 403 any
admin who does not own the trip and has no ACCEPTED participant row on
it. -/
theorem admin_bypass_amended :
    (∀ (trip : Trip) (user : User) (db : List Participant) (re : Bool),
        user.is_superuser = true →
          Trips.check_trip_access trip user db re = some PermissionLevel.owner ∧
          Trips.verify_trip_access trip user db re
            = Except.ok PermissionLevel.owner) ∧
    (∀ (trip_id : Nat) (admin : User) (trips : List Trip)
        (participants : List Participant) (re : Bool) (trip : Trip),
        admin.is_superuser = true →
        trips.find? (fun t => t.id = trip_id) = some trip →
        trip.owner_id ≠ admin.id →
        (∀ p ∈ participants, ¬ acceptedRowFor trip_id admin.id p) →
        AccessControl.verify_trip_access trip_id admin trips participants re
          = Except.error ⟨403, "Access denied"⟩) := by
  constructor
  · intro trip user db re hs
    constructor
    · simp [Trips.check_trip_access, hs]
    · simp [Trips.verify_trip_access, Trips.check_trip_access, hs]
  · intro trip_id admin trips participants re trip _hs hfind ho hnone
    have hfind2 : participants.find? (acceptedRowFor trip_id admin.id) = none :=
      List.find?_eq_none.mpr hnone
    simp [AccessControl.verify_trip_access, hfind, ho, hfind2]

/-- C2 witness: concrete admin, trip owned by someone else, empty
participant table: allowed by the trips-router verifier, denied by the
access-control-utility verifier. -/
theorem admin_bypass_amended_witness :
    Trips.verify_trip_access ⟨1, 1⟩ ⟨2, "a", "a@x", none, true⟩ [] false
      = Except.ok PermissionLevel.owner ∧
    AccessControl.verify_trip_access 1 ⟨2, "a", "a@x", none, true⟩
      [⟨1, 1⟩] [] false = Except.error ⟨403, "Access denied"⟩ := by
  refine ⟨(admin_bypass_amended.1 ⟨1, 1⟩ ⟨2, "a", "a@x", none, true⟩ [] false rfl).2,
    admin_bypass_amended.2 1 ⟨2, "a", "a@x", none, true⟩ [⟨1, 1⟩] [] false ⟨1, 1⟩
      rfl (by decide) (by decide) (by decide)⟩

/-- C3: the trips-router verifier raises HTTP 403 exactly when the resolved
level (resolution with `require_edit = false`) is `None`, or `require_edit`
is set and the resolved level cannot edit (`canEditLevel` is true exactly
for OWNER and EDITOR); otherwise it returns the resolved level
unchanged. -/
theorem verify_trip_access_denies_iff_insufficient
    (trip : Trip) (user : User) (db : List Participant) (re : Bool) :
    ((∃ e, Trips.verify_trip_access trip user db re = Except.error e ∧
        e.status_code = 403) ↔
      Trips.check_trip_access trip user db false = none ∨
        (re = true ∧
          canEditLevel (Trips.check_trip_access trip user db false) = false)) ∧
    (∀ lvl, Trips.verify_trip_access trip user db re = Except.ok lvl ↔
      (Trips.check_trip_access trip user db false = some lvl ∧
        ¬(re = true ∧
          canEditLevel (Trips.check_trip_access trip user db false) = false))) := by
  by_cases hs : user.is_superuser
  · simp [Trips.verify_trip_access, Trips.check_trip_access, hs, canEditLevel]
  · by_cases ho : trip.owner_id = user.id
    · simp [Trips.verify_trip_access, Trips.check_trip_access, hs, ho,
        canEditLevel]
    · cases hfind : db.find? (acceptedRowFor trip.id user.id) with
      | none =>
        simp [Trips.verify_trip_access, Trips.check_trip_access, hs, ho,
          hfind, canEditLevel]
      | some p =>
        cases re <;> cases hp : p.permission <;>
          simp [Trips.verify_trip_access, Trips.check_trip_access, hs, ho,
            hfind, hp, canEditLevel]

/-- C3 witness: an ACCEPTED VIEWER participant passes a read check but is
denied with HTTP 403 on an edit check. -/
theorem verify_trip_access_denies_iff_insufficient_witness :
    (∃ e, Trips.verify_trip_access ⟨1, 10⟩ ⟨5, "u", "u@x", none, false⟩
      [⟨7, 1, some 5, "n", none, none, none, PermissionLevel.viewer,
        InvitationStatus.accepted, none, none⟩] true
      = Except.error e ∧ e.status_code = 403) ∧
    Trips.verify_trip_access ⟨1, 10⟩ ⟨5, "u", "u@x", none, false⟩
      [⟨7, 1, some 5, "n", none, none, none, PermissionLevel.viewer,
        InvitationStatus.accepted, none, none⟩] false
      = Except.ok PermissionLevel.viewer :=
  ⟨(verify_trip_access_denies_iff_insufficient ⟨1, 10⟩
      ⟨5, "u", "u@x", none, false⟩
      [⟨7, 1, some 5, "n", none, none, none, PermissionLevel.viewer,
        InvitationStatus.accepted, none, none⟩] true).1.mpr
      (Or.inr ⟨rfl, by decide⟩),
    rfl⟩

namespace Encryption

/-- Six-bit value of a base64 character. `urlsafe_b64decode` translates
`-`/`_` to `+`/`/` and then decodes with the standard alphabet, so both
pairs are accepted here. -/
def b64charVal (c : Char) : Option Nat :=
  if 'A' ≤ c ∧ c ≤ 'Z' then some (c.toNat - 'A'.toNat)
  else if 'a' ≤ c ∧ c ≤ 'z' then some (c.toNat - 'a'.toNat + 26)
  else if '0' ≤ c ∧ c ≤ '9' then some (c.toNat - '0'.toNat + 52)
  else if c = '-' ∨ c = '+' then some 62
  else if c = '_' ∨ c = '/' then some 63
  else none

/-- Base64 decoding of a character list, four characters at a time, with
padding (`=`) accepted only in the final quad.  As in CPython's
`binascii.a2b_base64`, the unused low-order bits of the last data
character of a padded final quad are discarded, so two strings differing
only in those bits decode to the same bytes. -/
def b64decodeQuads : List Char → Option (List Nat)
  | [] => some []
  | c0 :: c1 :: c2 :: c3 :: rest =>
    match b64charVal c0, b64charVal c1 with
    | some v0, some v1 =>
      if c2 = '=' then
        if c3 = '=' ∧ rest = [] then some [v0 * 4 + v1 / 16] else none
      else
        match b64charVal c2 with
        | some v2 =>
          if c3 = '=' then
            if rest = [] then
              some [v0 * 4 + v1 / 16, (v1 % 16) * 16 + v2 / 4]
            else none
          else
            match b64charVal c3 with
            | some v3 =>
              match b64decodeQuads rest with
              | some bs =>
                some ([v0 * 4 + v1 / 16, (v1 % 16) * 16 + v2 / 4,
                  (v2 % 4) * 64 + v3] ++ bs)
              | none => none
            | none => none
        | none => none
    | _, _ => none
  | _ => none

/-- Model of `base64.urlsafe_b64decode` on strings, modelled for inputs whose
length is a multiple of four with padding only at the end (`None` stands
for the `binascii.Error` exception).  All salts produced by
`generate_salt` (canonical base64 of 16 random bytes) are in this
fragment. -/
def urlsafe_b64decode (s : String) : Option (List Nat) :=
  b64decodeQuads s.toList

/-- The key returned by `EncryptionService._derive_key`:
PBKDF2-HMAC-SHA256(secret, salt, 100000 iterations), idealized as the pair
of its inputs — derivation is deterministic, and the standard
collision-resistance assumption is idealized as injectivity. -/
structure DerivedKey where
  secret : String
  salt_bytes : List Nat
deriving DecidableEq, Repr

/-- A string in a position where the service treats it as Fernet data:
the empty string, a well-formed Fernet token (recording the key that
produced it and the enclosed plaintext — the AEAD idealization), or any
other string, which fails authentication under every key. -/
inductive Ciphertext where
  | empty
  | token (key : DerivedKey) (plaintext : String)
  | corrupt (raw : String)
deriving DecidableEq, Repr

/-- Model of `Fernet(key).encrypt(plaintext)`: an authenticated token bound to the
key. -/
def fernetEncrypt (key : DerivedKey) (plaintext : String) : Ciphertext :=
  Ciphertext.token key plaintext

/-- Model of `Fernet(key).decrypt(token)`: succeeds exactly on a token built with
the same key, returning its plaintext; raises `InvalidToken` on anything
else (wrong key, corrupted data, non-token input). -/
def fernetDecrypt (key : DerivedKey) : Ciphertext → Except String String
  | Ciphertext.token k pt =>
      if k = key then Except.ok pt else Except.error "InvalidToken"
  | _ => Except.error "InvalidToken"

/-- Model of `EncryptionService` (`utils/encryption.py`): holds the `SECRET_KEY`
master secret. -/
structure EncryptionService where
  secret : String
deriving DecidableEq, Repr

/-- Model of `EncryptionService._derive_key` over already-decoded salt bytes. -/
def EncryptionService.derive_key (svc : EncryptionService)
    (salt_bytes : List Nat) : DerivedKey :=
  ⟨svc.secret, salt_bytes⟩

/-- Model of `EncryptionService.encrypt` (`utils/encryption.py` lines 52-78):
empty plaintext ⇒ empty ciphertext; empty salt ⇒ `ValueError` (propagates);
undecodable salt ⇒ `binascii.Error` (propagates); otherwise Fernet-encrypt
under the key derived from the decoded salt. -/
def EncryptionService.encrypt (svc : EncryptionService)
    (plaintext salt : String) : Except String Ciphertext :=
  if plaintext = "" then Except.ok Ciphertext.empty
  else if salt = "" then Except.error "Salt is required for encryption"
  else
    match urlsafe_b64decode salt with
    | none => Except.error "binascii.Error"
    | some salt_bytes =>
        Except.ok (fernetEncrypt (svc.derive_key salt_bytes) plaintext)

/-- The body of the `try` block of `EncryptionService.decrypt`: decode the
salt, derive the key, Fernet-decrypt.  Any error raised here is caught by
the enclosing `except Exception` handler. -/
def EncryptionService.decrypt_attempt (svc : EncryptionService)
    (ciphertext : Ciphertext) (salt : String) : Except String String :=
  match urlsafe_b64decode salt with
  | none => Except.error "binascii.Error"
  | some salt_bytes => fernetDecrypt (svc.derive_key salt_bytes) ciphertext

/-- Model of `EncryptionService.decrypt` (`utils/encryption.py` lines 80-113):
empty ciphertext ⇒ `""`; empty salt ⇒ warning printed and `""` returned
(no exception raised); otherwise the `try` body runs and any exception is
caught, returning `""`.  The function is total: no error escapes. -/
def EncryptionService.decrypt (svc : EncryptionService)
    (ciphertext : Ciphertext) (salt : String) : String :=
  if ciphertext = Ciphertext.empty then ""
  else if salt = "" then ""
  else
    match svc.decrypt_attempt ciphertext salt with
    | Except.ok plaintext => plaintext
    | Except.error _ => ""

end Encryption

/-- C4: for every non-empty plaintext and every non-empty base64-decodable
salt, encryption succeeds and decryption with the same salt returns the
plaintext. -/
theorem encrypt_decrypt_roundtrip (svc : Encryption.EncryptionService)
    (p salt : String) (bytes : List Nat)
    (hp : p ≠ "") (hsalt : salt ≠ "")
    (hdec : Encryption.urlsafe_b64decode salt = some bytes) :
    ∃ ct, svc.encrypt p salt = Except.ok ct ∧ svc.decrypt ct salt = p := by
  refine ⟨Encryption.Ciphertext.token (svc.derive_key bytes) p, ?_, ?_⟩
  · simp [Encryption.EncryptionService.encrypt, hp, hsalt, hdec,
      Encryption.fernetEncrypt]
  · simp [Encryption.EncryptionService.decrypt,
      Encryption.EncryptionService.decrypt_attempt, hsalt, hdec,
      Encryption.fernetDecrypt]

/-- C4 witness: concrete master secret, plaintext and salt. -/
theorem encrypt_decrypt_roundtrip_witness :
    ∃ ct, Encryption.EncryptionService.encrypt ⟨"master-secret"⟩ "sk-abc" "AAAA"
        = Except.ok ct ∧
      Encryption.EncryptionService.decrypt ⟨"master-secret"⟩ ct "AAAA"
        = "sk-abc" :=
  encrypt_decrypt_roundtrip ⟨"master-secret"⟩ "sk-abc" "AAAA" [0, 0, 0]
    (by decide) (by decide) (by decide)

/-- C5 counterexample: `"AA=="` and `"AB=="` are distinct, non-empty,
base64-decodable salt strings, yet (as in CPython, which discards the
unused trailing bits of the final base64 group) they decode to the same
byte, so decrypting with the other salt returns the original plaintext —
a non-empty string, not the empty sentinel. -/
theorem decrypt_wrong_salt_string_counterexample :
    ("AA==" : String) ≠ "AB==" ∧
    Encryption.urlsafe_b64decode "AA==" = some [0] ∧
    Encryption.urlsafe_b64decode "AB==" = some [0] ∧
    Encryption.EncryptionService.encrypt ⟨"master"⟩ "sk-abc" "AA=="
      = Except.ok (Encryption.Ciphertext.token ⟨"master", [0]⟩ "sk-abc") ∧
    Encryption.EncryptionService.decrypt ⟨"master"⟩
      (Encryption.Ciphertext.token ⟨"master", [0]⟩ "sk-abc") "AB=="
      = "sk-abc" := by
  refine ⟨by decide, by decide, by decide, rfl, rfl⟩

/-- C5 amended: decryption of a ciphertext produced under `salt1` with a
salt `salt2` whose decoded bytes differ returns the empty sentinel; and
for every (ciphertext, salt) pair, `decrypt` never raises — its result is
either the empty sentinel or the exact plaintext of an authentic token,
never a garbled non-empty string. -/
theorem decrypt_fails_closed_amended (svc : Encryption.EncryptionService)
    (p salt1 salt2 : String) (b1 b2 : List Nat) (ct : Encryption.Ciphertext)
    (hp : p ≠ "")
    (h1 : Encryption.urlsafe_b64decode salt1 = some b1)
    (h2 : Encryption.urlsafe_b64decode salt2 = some b2)
    (hne : b1 ≠ b2)
    (henc : svc.encrypt p salt1 = Except.ok ct) :
    svc.decrypt ct salt2 = "" ∧
    ∀ (c : Encryption.Ciphertext) (s : String),
      svc.decrypt c s = "" ∨
        ∃ k q, c = Encryption.Ciphertext.token k q ∧ svc.decrypt c s = q := by
  constructor
  · have hs1 : salt1 ≠ "" := by
      intro h
      rw [h] at henc
      simp [Encryption.EncryptionService.encrypt, hp] at henc
    have hct : ct = Encryption.Ciphertext.token (svc.derive_key b1) p := by
      rw [Encryption.EncryptionService.encrypt] at henc
      simp [hp, hs1, h1, Encryption.fernetEncrypt] at henc
      exact henc.symm
    subst hct
    by_cases hs2 : salt2 = ""
    · simp [Encryption.EncryptionService.decrypt, hs2]
    · have hkey : svc.derive_key b1 ≠ svc.derive_key b2 := by
        intro h
        exact hne (congrArg Encryption.DerivedKey.salt_bytes h)
      simp [Encryption.EncryptionService.decrypt,
        Encryption.EncryptionService.decrypt_attempt, hs2, h2,
        Encryption.fernetDecrypt, hkey]
  · intro c s
    by_cases hs : s = ""
    · left
      cases c <;> simp [Encryption.EncryptionService.decrypt, hs]
    · cases c with
      | empty => left; simp [Encryption.EncryptionService.decrypt]
      | corrupt r =>
        left
        cases hdec : Encryption.urlsafe_b64decode s <;>
          simp [Encryption.EncryptionService.decrypt,
            Encryption.EncryptionService.decrypt_attempt, hs, hdec,
            Encryption.fernetDecrypt]
      | token k q =>
        cases hdec : Encryption.urlsafe_b64decode s with
        | none =>
          left
          simp [Encryption.EncryptionService.decrypt,
            Encryption.EncryptionService.decrypt_attempt, hs, hdec]
        | some bs =>
          by_cases hk : k = svc.derive_key bs
          · right
            refine ⟨k, q, rfl, ?_⟩
            simp [Encryption.EncryptionService.decrypt,
              Encryption.EncryptionService.decrypt_attempt, hs, hdec,
              Encryption.fernetDecrypt, hk]
          · left
            simp [Encryption.EncryptionService.decrypt,
              Encryption.EncryptionService.decrypt_attempt, hs, hdec,
              Encryption.fernetDecrypt, hk]

/-- C5 amended witness: salts `"AAAA"` and `"AAA="` decode to different
byte strings, and decryption across them yields the empty sentinel. -/
theorem decrypt_fails_closed_amended_witness :
    Encryption.EncryptionService.decrypt ⟨"m"⟩
      (Encryption.Ciphertext.token ⟨"m", [0, 0, 0]⟩ "k") "AAA=" = "" :=
  (decrypt_fails_closed_amended ⟨"m"⟩ "k" "AAAA" "AAA=" [0, 0, 0] [0, 0]
    (Encryption.Ciphertext.token ⟨"m", [0, 0, 0]⟩ "k")
    (by decide) (by decide) (by decide) (by decide) rfl).1

/-- C6 counterexample: decrypting with an empty salt does not raise — it
returns the quiet empty-string sentinel, the same result as a wrong-salt
decryption failure, contrary to the claim that decrypt fails loudly on a
missing salt (only `encrypt` does). -/
theorem decrypt_empty_salt_quiet_counterexample :
    Encryption.EncryptionService.decrypt ⟨"m"⟩
      (Encryption.Ciphertext.token ⟨"m", [0]⟩ "sk-abc") "" = "" := rfl

/-- C6 amended: with a missing/empty salt, `encrypt` of a non-empty
plaintext fails loudly (raises `ValueError`), while `decrypt` quietly
returns the empty-string sentinel for every ciphertext, indistinguishable
from the wrong-salt failure result. -/
theorem missing_salt_contract_amended (svc : Encryption.EncryptionService)
    (p : String) (hp : p ≠ "") :
    svc.encrypt p "" = Except.error "Salt is required for encryption" ∧
    ∀ c : Encryption.Ciphertext, svc.decrypt c "" = "" := by
  constructor
  · simp [Encryption.EncryptionService.encrypt, hp]
  · intro c
    cases c <;> simp [Encryption.EncryptionService.decrypt]

/-- C6 amended witness. -/
theorem missing_salt_contract_amended_witness :
    Encryption.EncryptionService.encrypt ⟨"m"⟩ "sk-abc" ""
        = Except.error "Salt is required for encryption" ∧
    Encryption.EncryptionService.decrypt ⟨"m"⟩
        (Encryption.Ciphertext.corrupt "junk") "" = "" :=
  ⟨(missing_salt_contract_amended ⟨"m"⟩ "sk-abc" (by decide)).1,
    (missing_salt_contract_amended ⟨"m"⟩ "sk-abc" (by decide)).2
      (Encryption.Ciphertext.corrupt "junk")⟩

/-- Replace the first element satisfying `pred` by its image under `f`:
the ORM mutates, in place, the row object returned by the unique-row
lookup; the embedding rewrites that row within the list. -/
def replaceFirst {α : Type} (pred : α → Bool) (f : α → α) : List α → List α
  | [] => []
  | x :: xs => if pred x then f x :: xs else x :: replaceFirst pred f xs

theorem replaceFirst_length {α : Type} (pred : α → Bool) (f : α → α)
    (l : List α) : (replaceFirst pred f l).length = l.length := by
  induction l with
  | nil => rfl
  | cons b bs ih => by_cases hb : pred b <;> simp [replaceFirst, hb, ih]

theorem mem_replaceFirst_self {α : Type} (pred : α → Bool) (f : α → α)
    (l : List α) (a : α) (ha : a ∈ l) (hpa : pred a = true)
    (huniq : ∀ x ∈ l, pred x = true → x = a) :
    f a ∈ replaceFirst pred f l := by
  induction l with
  | nil => cases ha
  | cons b bs ih =>
    by_cases hb : pred b = true
    · have hba : b = a := huniq b (List.mem_cons_self b bs) hb
      subst hba
      simp [replaceFirst, hb]
    · rcases List.mem_cons.mp ha with h | h
      · subst h; exact absurd hpa hb
      · have hmem := ih h fun x hx hpx =>
          huniq x (List.mem_cons_of_mem _ hx) hpx
        simp only [replaceFirst, if_neg hb]
        exact List.mem_cons_of_mem _ hmem

theorem mem_replaceFirst_of_not_pred {α : Type} (pred : α → Bool)
    (f : α → α) (l : List α) (q : α) (hq : q ∈ l) (hnq : pred q = false) :
    q ∈ replaceFirst pred f l := by
  induction l with
  | nil => cases hq
  | cons b bs ih =>
    by_cases hb : pred b = true
    · rcases List.mem_cons.mp hq with h | h
      · subst h; rw [hnq] at hb; cases hb
      · simp only [replaceFirst, if_pos hb]
        exact List.mem_cons_of_mem _ h
    · rcases List.mem_cons.mp hq with h | h
      · subst h
        simp only [replaceFirst, if_neg hb]
        exact List.mem_cons_self _ _
      · simp only [replaceFirst, if_neg hb]
        exact List.mem_cons_of_mem _ (ih h)

namespace Trips

/-- Model of `accept_trip_invitation` (`routes/trips.py` lines 891-943): look up the
participant row for (trip, current user); 404 if none; 400 if already
ACCEPTED or DECLINED (row untouched — the error is raised before any
mutation); otherwise set the status to ACCEPTED and stamp `accepted_at`
with the current instant. -/
def accept_trip_invitation (trip_id : Nat) (current_user : User)
    (db : List Participant) (now : Nat) :
    Except HTTPError (List Participant) :=
  match db.find? (rowForPair trip_id current_user.id) with
  | none => Except.error ⟨404, "No invitation found for this trip."⟩
  | some participant =>
    if participant.invitation_status = InvitationStatus.accepted then
      Except.error ⟨400, "Invitation already accepted."⟩
    else if participant.invitation_status = InvitationStatus.declined then
      Except.error ⟨400,
        "Invitation was already declined. Contact the trip owner for a new invitation."⟩
    else
      Except.ok (replaceFirst (rowForPair trip_id current_user.id)
        (fun p => { p with
                    invitation_status := InvitationStatus.accepted,
                    accepted_at := some now }) db)

/-- Model of `decline_trip_invitation` (`routes/trips.py` lines 946-991): look up
the participant row; 404 if none; 400 if the row is not PENDING (row
untouched); otherwise set the status to DECLINED. -/
def decline_trip_invitation (trip_id : Nat) (current_user : User)
    (db : List Participant) : Except HTTPError (List Participant) :=
  match db.find? (rowForPair trip_id current_user.id) with
  | none => Except.error ⟨404, "No invitation found for this trip."⟩
  | some participant =>
    if participant.invitation_status ≠ InvitationStatus.pending then
      Except.error ⟨400, "Invitation is not pending."⟩
    else
      Except.ok (replaceFirst (rowForPair trip_id current_user.id)
        (fun p => { p with invitation_status := InvitationStatus.declined })
        db)

/-- Python `invited_user.full_name or invited_user.username`: `or` falls
through on `None` and on the empty string. -/
def pyOrString (a : Option String) (b : String) : String :=
  match a with
  | some s => if s = "" then b else s
  | none => b

/-- The participant row inserted by `share_trip`.  `new_id` stands for the
database-assigned primary key; the `invited_at` server-default timestamp
is abstracted as unset. -/
def newInvitationRow (new_id trip_id : Nat) (invited_user : User)
    (permission : PermissionLevel) : Participant :=
  { id := new_id
    trip_id := trip_id
    user_id := some invited_user.id
    name := pyOrString invited_user.full_name invited_user.username
    email := some invited_user.email
    role := none
    photo_url := none
    permission := permission
    invitation_status := InvitationStatus.pending
    invited_at := none
    accepted_at := none }

/-- Model of `share_trip` (`routes/trips.py` lines 780-888): 404 if the trip does
not exist; `verify_trip_ownership` (admin or owner, else 403); 400 unless
the requested permission is EDITOR or VIEWER (the source message reads:
Invalid permission level. Use editor or viewer.); 404 if no user matches
the given username or email; 400 on self-invitation; 400 if a participant
row for the pair already exists (any status); otherwise insert a new
PENDING row with the requested permission. -/
def share_trip (trip_id : Nat) (username_or_email : String)
    (permission : PermissionLevel) (current_user : User)
    (trips : List Trip) (users : List User) (participants : List Participant)
    (new_id : Nat) : Except HTTPError (List Participant) :=
  match trips.find? (fun t => t.id = trip_id) with
  | none => Except.error ⟨404, "Trip not found"⟩
  | some trip =>
    match verify_trip_ownership trip current_user with
    | Except.error e => Except.error e
    | Except.ok _ =>
      if ¬ (permission = PermissionLevel.editor ∨
          permission = PermissionLevel.viewer) then
        Except.error ⟨400, "Invalid permission level. Use editor or viewer."⟩
      else
        match users.find? (userMatches username_or_email) with
        | none =>
            Except.error ⟨404,
              "User not found. Please check the username or email."⟩
        | some invited_user =>
          if invited_user.id = current_user.id then
            Except.error ⟨400, "You cannot invite yourself to your own trip."⟩
          else
            match participants.find? (rowForPair trip_id invited_user.id) with
            | some _ =>
                Except.error ⟨400, "User is already invited to this trip."⟩
            | none =>
                Except.ok (participants ++
                  [newInvitationRow new_id trip_id invited_user permission])

end Trips

/-- C7: invitation state machine.  With at most one participant row per
(invitee, trip) pair: no row ⇒ both `accept` and `decline` raise 404; an
ACCEPTED or DECLINED row ⇒ `accept` and `decline` raise 400 (errors are
raised before any mutation, so the row is unchanged); a PENDING row ⇒
`accept` succeeds, turning exactly that row ACCEPTED with `accepted_at`
stamped, and `decline` succeeds, turning it DECLINED — all other rows are
preserved and no row is added or removed. -/
theorem invitation_accept_decline_spec (trip_id : Nat) (user : User)
    (db : List Participant) (now : Nat)
    (huniq : ∀ x ∈ db, ∀ y ∈ db, rowForPair trip_id user.id x →
      rowForPair trip_id user.id y → x = y) :
    ((∀ p ∈ db, ¬ rowForPair trip_id user.id p) →
      Trips.accept_trip_invitation trip_id user db now
          = Except.error ⟨404, "No invitation found for this trip."⟩ ∧
      Trips.decline_trip_invitation trip_id user db
          = Except.error ⟨404, "No invitation found for this trip."⟩) ∧
    (∀ row ∈ db, rowForPair trip_id user.id row →
      (row.invitation_status = InvitationStatus.accepted →
        Trips.accept_trip_invitation trip_id user db now
            = Except.error ⟨400, "Invitation already accepted."⟩ ∧
        Trips.decline_trip_invitation trip_id user db
            = Except.error ⟨400, "Invitation is not pending."⟩) ∧
      (row.invitation_status = InvitationStatus.declined →
        Trips.accept_trip_invitation trip_id user db now
            = Except.error ⟨400,
              "Invitation was already declined. Contact the trip owner for a new invitation."⟩ ∧
        Trips.decline_trip_invitation trip_id user db
            = Except.error ⟨400, "Invitation is not pending."⟩) ∧
      (row.invitation_status = InvitationStatus.pending →
        (∃ db', Trips.accept_trip_invitation trip_id user db now
            = Except.ok db' ∧
          { row with
            invitation_status := InvitationStatus.accepted,
            accepted_at := some now } ∈ db' ∧
          (∀ q ∈ db, rowForPair trip_id user.id q = false → q ∈ db') ∧
          db'.length = db.length) ∧
        (∃ db', Trips.decline_trip_invitation trip_id user db
            = Except.ok db' ∧
          { row with invitation_status := InvitationStatus.declined } ∈ db' ∧
          (∀ q ∈ db, rowForPair trip_id user.id q = false → q ∈ db') ∧
          db'.length = db.length))) := by
  constructor
  · intro hnone
    have hfind : db.find? (rowForPair trip_id user.id) = none :=
      List.find?_eq_none.mpr hnone
    exact ⟨by simp [Trips.accept_trip_invitation, hfind],
      by simp [Trips.decline_trip_invitation, hfind]⟩
  · intro row hmem hpair
    have hfind : db.find? (rowForPair trip_id user.id) = some row :=
      find?_eq_some_of_mem_unique _ db row hmem hpair
        fun x hx hpx => huniq x hx row hmem hpx hpair
    refine ⟨?_, ?_, ?_⟩
    · intro hst
      exact ⟨by simp [Trips.accept_trip_invitation, hfind, hst],
        by simp [Trips.decline_trip_invitation, hfind, hst]⟩
    · intro hst
      exact ⟨by simp [Trips.accept_trip_invitation, hfind, hst],
        by simp [Trips.decline_trip_invitation, hfind, hst]⟩
    · intro hst
      constructor
      · refine ⟨replaceFirst (rowForPair trip_id user.id)
          (fun p => { p with
                      invitation_status := InvitationStatus.accepted,
                      accepted_at := some now }) db, ?_, ?_, ?_, ?_⟩
        · simp [Trips.accept_trip_invitation, hfind, hst]
        · exact mem_replaceFirst_self _ _ db row hmem hpair
            fun x hx hpx => huniq x hx row hmem hpx hpair
        · intro q hq hnq
          exact mem_replaceFirst_of_not_pred _ _ db q hq hnq
        · exact replaceFirst_length _ _ db
      · refine ⟨replaceFirst (rowForPair trip_id user.id)
          (fun p => { p with invitation_status := InvitationStatus.declined })
          db, ?_, ?_, ?_, ?_⟩
        · simp [Trips.decline_trip_invitation, hfind, hst]
        · exact mem_replaceFirst_self _ _ db row hmem hpair
            fun x hx hpx => huniq x hx row hmem hpx hpair
        · intro q hq hnq
          exact mem_replaceFirst_of_not_pred _ _ db q hq hnq
        · exact replaceFirst_length _ _ db

/-- C7 witness: re-accepting an already-ACCEPTED invitation fails with
HTTP 400. -/
theorem invitation_accept_decline_spec_witness :
    Trips.accept_trip_invitation 1 ⟨5, "u", "u@x", none, false⟩
      [⟨7, 1, some 5, "n", none, none, none, PermissionLevel.editor,
        InvitationStatus.accepted, none, none⟩] 42
      = Except.error ⟨400, "Invitation already accepted."⟩ :=
  (((invitation_accept_decline_spec 1 ⟨5, "u", "u@x", none, false⟩
      [⟨7, 1, some 5, "n", none, none, none, PermissionLevel.editor,
        InvitationStatus.accepted, none, none⟩] 42 (by decide)).2
    _ (List.mem_cons_self _ _) (by decide)).1 rfl).1

/-- C8: `share_trip`, with the trip and the invited user resolved.  A new
PENDING participant row carrying the requested permission is appended
exactly when the inviter is admin or the trip's owner, the requested
permission is EDITOR or VIEWER, the invitee is not the inviter, and no
participant row for the (invitee, trip) pair exists; when any of these
preconditions fails, the endpoint raises a 403/400 caller error and the
participant table is left untouched. -/
theorem share_trip_invite_spec (trip_id : Nat) (username_or_email : String)
    (permission : PermissionLevel) (current_user : User)
    (trips : List Trip) (users : List User) (participants : List Participant)
    (new_id : Nat) (trip : Trip) (invited : User)
    (htrip : trips.find? (fun t => t.id = trip_id) = some trip)
    (huser : users.find? (userMatches username_or_email) = some invited) :
    ((current_user.is_superuser = true ∨ trip.owner_id = current_user.id) →
      (permission = PermissionLevel.editor ∨
        permission = PermissionLevel.viewer) →
      invited.id ≠ current_user.id →
      (∀ p ∈ participants, ¬ rowForPair trip_id invited.id p) →
      Trips.share_trip trip_id username_or_email permission current_user
          trips users participants new_id
        = Except.ok (participants ++
            [Trips.newInvitationRow new_id trip_id invited permission]) ∧
      (Trips.newInvitationRow new_id trip_id invited
          permission).invitation_status = InvitationStatus.pending ∧
      (Trips.newInvitationRow new_id trip_id invited permission).permission
          = permission ∧
      (Trips.newInvitationRow new_id trip_id invited permission).user_id
          = some invited.id) ∧
    (¬ ((current_user.is_superuser = true ∨
          trip.owner_id = current_user.id) ∧
        (permission = PermissionLevel.editor ∨
          permission = PermissionLevel.viewer) ∧
        invited.id ≠ current_user.id ∧
        (∀ p ∈ participants, ¬ rowForPair trip_id invited.id p)) →
      ∃ e, Trips.share_trip trip_id username_or_email permission current_user
          trips users participants new_id = Except.error e ∧
        (e.status_code = 403 ∨ e.status_code = 400)) := by
  constructor
  · intro hown hperm hself hnodup
    have hvo : Trips.verify_trip_ownership trip current_user
        = Except.ok () := by
      rcases hown with h | h
      · simp [Trips.verify_trip_ownership, h]
      · by_cases hs : current_user.is_superuser
        · simp [Trips.verify_trip_ownership, hs]
        · simp [Trips.verify_trip_ownership, hs, h]
    have hfp : participants.find? (rowForPair trip_id invited.id) = none :=
      List.find?_eq_none.mpr hnodup
    have hmain : Trips.share_trip trip_id username_or_email permission
        current_user trips users participants new_id
        = Except.ok (participants ++
            [Trips.newInvitationRow new_id trip_id invited permission]) := by
      rcases hperm with hp | hp <;> subst hp <;>
        simp [Trips.share_trip, htrip, hvo, huser, hself, hfp]
    exact ⟨hmain, rfl, rfl, rfl⟩
  · intro hnot
    by_cases hs : current_user.is_superuser = true ∨
        trip.owner_id = current_user.id
    · have hvo : Trips.verify_trip_ownership trip current_user
          = Except.ok () := by
        rcases hs with h | h
        · simp [Trips.verify_trip_ownership, h]
        · by_cases hsu : current_user.is_superuser
          · simp [Trips.verify_trip_ownership, hsu]
          · simp [Trips.verify_trip_ownership, hsu, h]
      by_cases hperm : permission = PermissionLevel.editor ∨
          permission = PermissionLevel.viewer
      · by_cases hself : invited.id = current_user.id
        · refine ⟨⟨400, "You cannot invite yourself to your own trip."⟩,
            ?_, Or.inr rfl⟩
          rcases hperm with hp | hp <;> subst hp <;>
            simp [Trips.share_trip, htrip, hvo, huser, hself]
        · have hdup : ¬ (∀ p ∈ participants,
              ¬ rowForPair trip_id invited.id p) := by
            intro hall
            exact hnot ⟨hs, hperm, hself, hall⟩
          cases hfp : participants.find? (rowForPair trip_id invited.id) with
          | none => exact absurd (List.find?_eq_none.mp hfp) hdup
          | some p =>
            refine ⟨⟨400, "User is already invited to this trip."⟩,
              ?_, Or.inr rfl⟩
            rcases hperm with hp | hp <;> subst hp <;>
              simp [Trips.share_trip, htrip, hvo, huser, hself, hfp]
      · refine ⟨⟨400, "Invalid permission level. Use editor or viewer."⟩,
          ?_, Or.inr rfl⟩
        simp [Trips.share_trip, htrip, hvo, hperm]
    · obtain ⟨ha, hb⟩ := not_or.mp hs
      have ha' : current_user.is_superuser = false := by
        cases h : current_user.is_superuser
        · rfl
        · exact absurd h ha
      have hvo : Trips.verify_trip_ownership trip current_user
          = Except.error
              ⟨403, "You do not have permission to access this trip"⟩ := by
        simp [Trips.verify_trip_ownership, ha', hb]
      refine ⟨⟨403, "You do not have permission to access this trip"⟩,
        ?_, Or.inl rfl⟩
      simp [Trips.share_trip, htrip, hvo]

/-- C8 witness: the owner invites another user as EDITOR into a trip with
no existing rows; a PENDING EDITOR row is created. -/
theorem share_trip_invite_spec_witness :
    Trips.share_trip 1 "bob" PermissionLevel.editor
      ⟨5, "alice", "a@x", none, false⟩ [⟨1, 5⟩]
      [⟨6, "bob", "b@x", none, false⟩] [] 9
      = Except.ok ([] ++ [Trips.newInvitationRow 9 1
          ⟨6, "bob", "b@x", none, false⟩ PermissionLevel.editor]) :=
  ((share_trip_invite_spec 1 "bob" PermissionLevel.editor
      ⟨5, "alice", "a@x", none, false⟩ [⟨1, 5⟩]
      [⟨6, "bob", "b@x", none, false⟩] [] 9 ⟨1, 5⟩
      ⟨6, "bob", "b@x", none, false⟩ (by decide) (by decide)).1
    (Or.inr rfl) (Or.inl rfl) (by decide) (by decide)).1

namespace Audit

/-- The slice of a FastAPI `Request` read by `_extract_request_info`:
the `X-Forwarded-For` and `User-Agent` headers (absent ⇒ `none`), the
client host (absent when `request.client` is `None`), the method and the
URL path. -/
structure Request where
  x_forwarded_for : Option String
  client_host : Option String
  user_agent : Option String
  method : String
  path : String
deriving DecidableEq, Repr

/-- The request-metadata fields of an audit row. -/
structure RequestInfo where
  ip_address : Option String
  user_agent : Option String
  request_method : Option String
  request_path : Option String
deriving DecidableEq, Repr

/-- Model of `AuditService._extract_request_info` (`services/audit_service.py`):
no request ⇒ all fields empty; otherwise the client IP prefers the first
comma-separated hop of a non-empty `X-Forwarded-For` header, falling back
to the client host; the user agent (defaulted to `""`) and the path are
truncated to 500 characters. -/
def extract_request_info : Option Request → RequestInfo
  | none => ⟨none, none, none, none⟩
  | some r =>
    let ip :=
      match r.x_forwarded_for with
      | some fwd =>
          if fwd = "" then r.client_host
          else some (((fwd.splitOn ",").headD "").trim)
      | none => r.client_host
    ⟨ip, some ((r.user_agent.getD "").take 500), some r.method,
      some (r.path.take 500)⟩

/-- The `AuditLog` model (`models/audit_log.py`): the columns `log_event`
fills (the autoincrement id and the server-default timestamp are
database-side and abstracted away).  `details` is the JSON column,
modelled as key/value pairs. -/
structure AuditLog where
  event_type : String
  event_category : String
  user_id : Option Nat
  username : Option String
  resource_type : Option String
  resource_id : Option Nat
  description : Option String
  details : Option (List (String × String))
  status : String
  ip_address : Option String
  user_agent : Option String
  request_method : Option String
  request_path : Option String
deriving DecidableEq, Repr

/-- The async session as the audit service sees it: the committed audit
rows, plus whether the underlying store currently fails on commit
(modelling an unavailable database: `db.commit()` raises). -/
structure AuditDB where
  logs : List AuditLog
  commit_fails : Bool
deriving DecidableEq, Repr

/-- Model of `db.rollback()`: discards the uncommitted pending insert.  Committed
rows are untouched, and the embedding tracks only committed rows, so this
is the identity on the visible state. -/
def AuditDB.rollback (db : AuditDB) : AuditDB := db

/-- The row `log_event` constructs from its arguments plus the extracted
request metadata (`AuditLog(..., **request_info)`). -/
def buildEntry (event_type category : String) (user_id : Option Nat)
    (username : Option String) (resource_type : Option String)
    (resource_id : Option Nat) (description : Option String)
    (details : Option (List (String × String))) (status : String)
    (request : Option Request) : AuditLog :=
  let info := extract_request_info request
  { event_type := event_type
    event_category := category
    user_id := user_id
    username := username
    resource_type := resource_type
    resource_id := resource_id
    description := description
    details := details
    status := status
    ip_address := info.ip_address
    user_agent := info.user_agent
    request_method := info.request_method
    request_path := info.request_path }

/-- The body of the `try` block of `AuditService.log_event`: build the
entry, `db.add`, `db.commit` (raising when the store is unavailable),
`db.refresh`, return the entry. -/
def log_event_attempt (db : AuditDB) (event_type category : String)
    (user_id : Option Nat) (username : Option String)
    (resource_type : Option String) (resource_id : Option Nat)
    (description : Option String) (details : Option (List (String × String)))
    (status : String) (request : Option Request) :
    Except String (AuditLog × AuditDB) :=
  let entry := buildEntry event_type category user_id username resource_type
    resource_id description details status request
  if db.commit_fails then Except.error "OperationalError"
  else Except.ok (entry, { db with logs := db.logs ++ [entry] })

/-- Model of `AuditService.log_event` (`services/audit_service.py` lines 80-137):
runs the `try` body; on success returns the persisted entry; on any
exception, logs the failure to the structured logger (a side effect not
modelled), rolls back and returns `None`.  The function is total — no
exception escapes to the caller. -/
def log_event (db : AuditDB) (event_type category : String)
    (user_id : Option Nat) (username : Option String)
    (resource_type : Option String) (resource_id : Option Nat)
    (description : Option String) (details : Option (List (String × String)))
    (status : String) (request : Option Request) :
    Option AuditLog × AuditDB :=
  match log_event_attempt db event_type category user_id username
    resource_type resource_id description details status request with
  | Except.ok (entry, db') => (some entry, db')
  | Except.error _ => (none, db.rollback)

end Audit

/-- C9: the audit recorder never aborts the recorded operation: when the
store is available, `log_event` persists and returns the constructed
entry; when commit fails, the exception is caught, the session is rolled
back (committed rows unchanged) and `None` is returned — the result is
`None` exactly when persistence fails, and both cases return normally to
the caller. -/
theorem log_event_never_propagates (db : Audit.AuditDB)
    (event_type category : String) (user_id : Option Nat)
    (username : Option String) (resource_type : Option String)
    (resource_id : Option Nat) (description : Option String)
    (details : Option (List (String × String))) (status : String)
    (request : Option Audit.Request) :
    (db.commit_fails = true →
      Audit.log_event db event_type category user_id username resource_type
        resource_id description details status request = (none, db)) ∧
    (db.commit_fails = false →
      Audit.log_event db event_type category user_id username resource_type
        resource_id description details status request
        = (some (Audit.buildEntry event_type category user_id username
            resource_type resource_id description details status request),
          { db with logs := db.logs ++ [Audit.buildEntry event_type category
            user_id username resource_type resource_id description details
            status request] })) ∧
    ((Audit.log_event db event_type category user_id username resource_type
        resource_id description details status request).1 = none ↔
      db.commit_fails = true) := by
  refine ⟨?_, ?_, ?_⟩
  · intro h
    simp [Audit.log_event, Audit.log_event_attempt, Audit.AuditDB.rollback, h]
  · intro h
    simp [Audit.log_event, Audit.log_event_attempt, h]
  · cases h : db.commit_fails <;>
      simp [Audit.log_event, Audit.log_event_attempt,
        Audit.AuditDB.rollback, h]

/-- C9 witness: with an unavailable store, a security-denial audit call
returns `None` and leaves the committed rows unchanged. -/
theorem log_event_never_propagates_witness :
    Audit.log_event ⟨[], true⟩ "security.permission_denied" "security"
      (some 5) (some "u") (some "trip") (some 1) none none "warning" none
      = (none, ⟨[], true⟩) :=
  (log_event_never_propagates ⟨[], true⟩ "security.permission_denied"
    "security" (some 5) (some "u") (some "trip") (some 1) none none
    "warning" none).1 rfl

namespace ParticipantsRoutes

/-- The router-local `verify_trip_access` (`routes/participants.py` lines
35-47): 404 if the trip does not exist, 403 whenever the caller's id
differs from the trip's `owner_id`.  No admin branch and no participant
lookup: only the owner passes. -/
def verify_trip_access (trip_id : Nat) (current_user : User)
    (trips : List Trip) : Except HTTPError Trip :=
  match trips.find? (fun t => t.id = trip_id) with
  | none => Except.error ⟨404, "Trip not found"⟩
  | some trip =>
    if trip.owner_id ≠ current_user.id then
      Except.error ⟨403, "Access denied"⟩
    else Except.ok trip

/-- Model of `get_participants` (`routes/participants.py` lines 132-161): clamp
`limit` to 500, verify owner-only access, then page through the trip's
participant rows (list order stands for the `created_at` ordering). -/
def get_participants (trip_id skip limit : Nat) (current_user : User)
    (trips : List Trip) (participants : List Participant) :
    Except HTTPError (List Participant) :=
  let limit := min limit 500
  match verify_trip_access trip_id current_user trips with
  | Except.error e => Except.error e
  | Except.ok _ =>
      Except.ok
        (((participants.filter (fun p => p.trip_id = trip_id)).drop
          skip).take limit)

/-- Model of `create_participant` (`routes/participants.py`): verify owner-only
access, then insert a row with the given display fields and the column
defaults (`viewer` permission, `pending` status); `new_id` stands for the
database-assigned key. -/
def create_participant (trip_id : Nat) (name : String)
    (email role : Option String) (current_user : User) (trips : List Trip)
    (participants : List Participant) (new_id : Nat) :
    Except HTTPError (List Participant) :=
  match verify_trip_access trip_id current_user trips with
  | Except.error e => Except.error e
  | Except.ok _ =>
      Except.ok (participants ++
        [{ id := new_id
           trip_id := trip_id
           user_id := none
           name := name
           email := email
           role := role
           photo_url := none
           permission := PermissionLevel.viewer
           invitation_status := InvitationStatus.pending
           invited_at := none
           accepted_at := none }])

/-- Model of `update_participant` (`routes/participants.py`): look the row up by
id (404 if absent), verify owner-only access on its trip, then apply the
provided fields (`exclude_unset`: an outer `none` means the field was not
sent). -/
def update_participant (participant_id : Nat) (upd_name : Option String)
    (upd_email upd_role : Option (Option String)) (current_user : User)
    (trips : List Trip) (participants : List Participant) :
    Except HTTPError (List Participant) :=
  match participants.find? (fun p => p.id = participant_id) with
  | none => Except.error ⟨404, "Participant not found"⟩
  | some participant =>
    match verify_trip_access participant.trip_id current_user trips with
    | Except.error e => Except.error e
    | Except.ok _ =>
        Except.ok (replaceFirst (fun p => p.id = participant_id)
          (fun p => { p with
                      name := upd_name.getD p.name,
                      email := upd_email.getD p.email,
                      role := upd_role.getD p.role }) participants)

/-- Model of `delete_participant` (`routes/participants.py` lines 227-251): look
the row up by id (404 if absent), verify owner-only access on its trip,
then delete that row. -/
def delete_participant (participant_id : Nat) (current_user : User)
    (trips : List Trip) (participants : List Participant) :
    Except HTTPError (List Participant) :=
  match participants.find? (fun p => p.id = participant_id) with
  | none => Except.error ⟨404, "Participant not found"⟩
  | some participant =>
    match verify_trip_access participant.trip_id current_user trips with
    | Except.error e => Except.error e
    | Except.ok _ =>
        Except.ok (participants.eraseP (fun p => p.id = participant_id))

/-- Model of `upload_participant_photo` (`routes/participants.py`): look the row
up by id (404 if absent), verify owner-only access on its trip, save the
uploaded file (file-system side effect abstracted: `file_url` is the URL
`save_participant_photo` would return) and store the URL on the row. -/
def upload_participant_photo (participant_id : Nat) (file_url : String)
    (current_user : User) (trips : List Trip)
    (participants : List Participant) :
    Except HTTPError (List Participant) :=
  match participants.find? (fun p => p.id = participant_id) with
  | none => Except.error ⟨404, "Participant not found"⟩
  | some participant =>
    match verify_trip_access participant.trip_id current_user trips with
    | Except.error e => Except.error e
    | Except.ok _ =>
        Except.ok (replaceFirst (fun p => p.id = participant_id)
          (fun p => { p with photo_url := some file_url }) participants)

end ParticipantsRoutes

/-- C10: the participants router is owner-only.  For an existing trip, its
local `verify_trip_access` raises HTTP 403 for every caller whose id
differs from the trip's `owner_id` — the caller's `is_superuser` flag and
any ACCEPTED EDITOR/VIEWER participant rows are never consulted — and each
endpoint of the router (list, create, update, delete, photo upload)
propagates that denial; conversely the owner passes the check. -/
theorem participants_router_owner_only (trip_id : Nat) (user : User)
    (trips : List Trip) (trip : Trip)
    (htrip : trips.find? (fun t => t.id = trip_id) = some trip) :
    (trip.owner_id ≠ user.id →
      ParticipantsRoutes.verify_trip_access trip_id user trips
          = Except.error ⟨403, "Access denied"⟩ ∧
      (∀ skip limit (participants : List Participant),
        ParticipantsRoutes.get_participants trip_id skip limit user trips
            participants = Except.error ⟨403, "Access denied"⟩) ∧
      (∀ name email role (participants : List Participant) new_id,
        ParticipantsRoutes.create_participant trip_id name email role user
            trips participants new_id
          = Except.error ⟨403, "Access denied"⟩) ∧
      (∀ pid un ue ur (participants : List Participant) p,
        participants.find? (fun q => q.id = pid) = some p →
        p.trip_id = trip_id →
        ParticipantsRoutes.update_participant pid un ue ur user trips
            participants = Except.error ⟨403, "Access denied"⟩) ∧
      (∀ pid (participants : List Participant) p,
        participants.find? (fun q => q.id = pid) = some p →
        p.trip_id = trip_id →
        ParticipantsRoutes.delete_participant pid user trips participants
          = Except.error ⟨403, "Access denied"⟩) ∧
      (∀ pid file_url (participants : List Participant) p,
        participants.find? (fun q => q.id = pid) = some p →
        p.trip_id = trip_id →
        ParticipantsRoutes.upload_participant_photo pid file_url user trips
            participants = Except.error ⟨403, "Access denied"⟩)) ∧
    (trip.owner_id = user.id →
      ParticipantsRoutes.verify_trip_access trip_id user trips
        = Except.ok trip) := by
  constructor
  · intro hne
    have hv : ParticipantsRoutes.verify_trip_access trip_id user trips
        = Except.error ⟨403, "Access denied"⟩ := by
      simp [ParticipantsRoutes.verify_trip_access, htrip, hne]
    refine ⟨hv, ?_, ?_, ?_, ?_, ?_⟩
    · intro skip limit participants
      simp [ParticipantsRoutes.get_participants, hv]
    · intro name email role participants new_id
      simp [ParticipantsRoutes.create_participant, hv]
    · intro pid un ue ur participants p hp hpt
      rw [← hpt] at hv
      simp [ParticipantsRoutes.update_participant, hp, hv]
    · intro pid participants p hp hpt
      rw [← hpt] at hv
      simp [ParticipantsRoutes.delete_participant, hp, hv]
    · intro pid file_url participants p hp hpt
      rw [← hpt] at hv
      simp [ParticipantsRoutes.upload_participant_photo, hp, hv]
  · intro heq
    simp [ParticipantsRoutes.verify_trip_access, htrip, heq]

/-- C10 witness: an administrator who does not own the trip is denied by
the participants router, and so is an ACCEPTED EDITOR participant. -/
theorem participants_router_owner_only_witness :
    ParticipantsRoutes.get_participants 1 0 100 ⟨2, "admin", "a@x", none, true⟩
      [⟨1, 5⟩]
      [⟨7, 1, some 2, "n", none, none, none, PermissionLevel.editor,
        InvitationStatus.accepted, none, none⟩]
      = Except.error ⟨403, "Access denied"⟩ ∧
    ParticipantsRoutes.verify_trip_access 1 ⟨5, "owner", "o@x", none, false⟩
      [⟨1, 5⟩] = Except.ok ⟨1, 5⟩ :=
  ⟨((participants_router_owner_only 1 ⟨2, "admin", "a@x", none, true⟩
      [⟨1, 5⟩] ⟨1, 5⟩ (by decide)).1 (by decide)).2.1 0 100 _,
    (participants_router_owner_only 1 ⟨5, "owner", "o@x", none, false⟩
      [⟨1, 5⟩] ⟨1, 5⟩ (by decide)).2 rfl⟩

end TravelMind
